import Mathlib

/-!
# Shallow embedding of the Drive image upload / gallery-cache core

This development formalises the core of `DriveImageHandler`
(`src/extensions/driveImage/DriveImageHandler.js`): file validation,
the single-file upload path, the timeout discipline of the custom fetch
wrappers, error-message formatting, the batch scheduler
(`uploadMultipleImages`) and the gallery cache (`loadGallery`,
`setCache`, `getCache`, `clearCache`).

Conventions of the embedding:
* JS strings are Lean `String`s; validation reasons about the sequence
  of Unicode scalar values (`String.toList`), with an explicit UTF-16
  code-unit length function where the source uses JS `String.length`.
* JS numbers standing for sizes, timeouts and timestamps are `Nat`;
  a `0` models an absent/falsy option field, so the JS idiom
  `options.x || d` becomes `jsOr x d`.
* Asynchronous network behaviour is modelled by an *environment* value
  that fixes, for one request, the latency at which the transport layer
  would settle and the value it would settle with.  The fetch wrappers
  become pure functions of this environment, the configured timeout and
  the race between the timer and the transport.
* Side effects (network requests, editor insertion, toast messages) are
  recorded in an explicit effect trace returned alongside the result.
  Error-throwing JS code is modelled with `Except`.
-/

/-- JS `x || d` for `Nat`-valued option fields: `0` is falsy. -/
def jsOr (x d : Nat) : Nat := if x = 0 then d else x

/-- JS `s || d` for string fields: the empty string is falsy. -/
def jsOrS (x d : String) : String := if x = "" then d else x

/-- Boolean prefix test on character lists (used to model JS
`String.prototype.includes`). -/
def listIsPrefixOfB : List Char → List Char → Bool
  | [], _ => true
  | _ :: _, [] => false
  | a :: as, b :: bs => a == b && listIsPrefixOfB as bs

/-- Boolean infix test on character lists. -/
def listIsInfixOfB (needle : List Char) : List Char → Bool
  | [] => needle.isEmpty
  | b :: rest => listIsPrefixOfB needle (b :: rest) || listIsInfixOfB needle rest

/-- JS `s.includes(sub)`. -/
def jsIncludes (s sub : String) : Bool := listIsInfixOfB sub.toList s.toList

/-- JS `s.split('\n')[0]`. -/
def firstLine (s : String) : String :=
  ⟨s.toList.takeWhile (fun c => c ≠ '\n')⟩

/-- Number of UTF-16 code units a Unicode scalar value occupies; JS
`String.length` counts these, not code points. -/
def utf16Units (c : Char) : Nat := if c.toNat < 0x10000 then 1 else 2

/-- JS `String.length` of a sequence of scalar values. -/
def utf16Length (s : List Char) : Nat := (s.map utf16Units).sum

/-- A `File` as seen by the handler: `name`, `type` (MIME type, `""`
models a missing/empty type, which is falsy in JS) and `size` in
bytes. -/
structure JsFile where
  name : String
  type : String
  size : Nat
deriving DecidableEq, Repr

/-- The options object consumed by `DriveImageHandler`
(`DriveImageExtension.addOptions` supplies the documented defaults;
the handler re-applies per-field `||`-defaults).  `0` in a `Nat` field
models an absent value. -/
structure Options where
  webAppUrl : String
  maxFileSize : Nat
  allowedMimeTypes : List String
  uploadTimeout : Nat
  maxConcurrentUploads : Nat
  galleryTimeout : Nat
  galleryCacheTimeout : Nat
deriving DecidableEq, Repr

/-- Which `validateFile` check rejected the file; each constructor
corresponds to one early-`return false` branch (and its distinct toast
message) in the source.  `none` models `return true`. -/
inductive ValidationError where
  | noType
  | unsupportedType
  | tooLarge
  | nameTooLong
  | nameInvalid
deriving DecidableEq, Repr

/-- The characters of the source's `dangerousChars` regex character
class, `[<>:"/\\|?*]`, without its `\x00-\x1F` range. -/
def reservedChars : List Char := ['<', '>', ':', '"', '/', '\\', '|', '?', '*']

/-- One character matches the source regex `[<>:"/\\|?*\x00-\x1F]`. -/
def isDangerousChar (c : Char) : Bool :=
  reservedChars.contains c || c.toNat ≤ 0x1F

/-- `DriveImageHandler.validateFile`, embedded from the source.  The
checks run in source order and short-circuit: missing/empty `type`;
MIME type membership in `options.allowedMimeTypes`; `file.size >
options.maxFileSize`; `file.name.length > 255` (JS UTF-16 length);
the `dangerousChars` regex test.  The toast message shown by each
failing branch is summarised by the returned `ValidationError`. -/
def validateFile (file : JsFile) (options : Options) : Option ValidationError :=
  if file.type = "" then some .noType
  else if ¬ options.allowedMimeTypes.contains file.type then some .unsupportedType
  else if options.maxFileSize < file.size then some .tooLarge
  else if 255 < utf16Length file.name.toList then some .nameTooLong
  else if file.name.toList.any isDangerousChar then some .nameInvalid
  else none

/-- `DriveImageHandler.formatUploadError`, embedded from the source:
a chain of `error.message.includes(...)` tests selecting a formatted
message. -/
def formatUploadError (msg fileName : String) : String :=
  let baseMessage := "\"" ++ fileName ++ "\" のアップロードに失敗しました"
  if jsIncludes msg "timeout" then baseMessage ++ ": 通信タイムアウト"
  else if jsIncludes msg "HTTP 413" then baseMessage ++ ": ファイルサイズが大きすぎます"
  else if jsIncludes msg "HTTP 429" then
    baseMessage ++ ": アクセス制限中です。しばらく待ってから再試行してください"
  else if jsIncludes msg "HTTP" then
    baseMessage ++ ": サーバーエラー (" ++ firstLine msg ++ ")"
  else if jsIncludes msg "ファイル検証" then msg
  else if jsIncludes msg "NetworkError" || jsIncludes msg "Failed to fetch" then
    baseMessage ++ ": ネットワークエラー。インターネット接続を確認してください"
  else if jsIncludes msg "CORS" then
    baseMessage ++ ": アクセス制限エラー。しばらく待ってから再試行してください"
  else baseMessage ++ ": " ++ msg

/-- `DriveImageHandler.formatGalleryError`, embedded from the source. -/
def formatGalleryError (msg : String) : String :=
  if jsIncludes msg "timeout" then "通信タイムアウト"
  else if jsIncludes msg "HTTP 403" then "アクセス権限がありません"
  else if jsIncludes msg "HTTP 429" then
    "アクセス制限中です。しばらく待ってから再試行してください"
  else if jsIncludes msg "NetworkError" || jsIncludes msg "Failed to fetch" then
    "ネットワークエラー"
  else if jsIncludes msg "CORS" then "アクセス制限エラー"
  else msg

/-- The body of a JSON upload response, `{success, id, url, name,
method, error}`; absent string fields are modelled as `""` (falsy). -/
structure ServerBody where
  success : Bool
  id : String
  url : String
  name : String
  method : String
  error : String
deriving DecidableEq, Repr

/-- A settled `fetch` `Response`: status information, the text body
(`response.text()`, with its `.catch` already folded in) and the
outcome of `response.json()` (`Except.error` models a parse throw). -/
structure JsResponse where
  ok : Bool
  status : Nat
  statusText : String
  text : String
  json : Except String ServerBody
deriving Repr

/-- Environment of one upload request: the wall-clock latency after
which the transport layer would settle, and what it would settle with
(`Except.error` models a `fetch` rejection such as a network error). -/
structure TransportEnv where
  latencyMs : Nat
  server : Except String JsResponse

/-- Result of a fetch wrapper: how the promise settled, at which
elapsed time, and whether the `AbortController` aborted the request. -/
structure FetchRes where
  result : Except String JsResponse
  settledAtMs : Nat
  aborted : Bool

/-- The timeout rejection message of `fetchWithoutPreflight`. -/
def uploadTimeoutMsg (timeout : Nat) : String :=
  "アップロードタイムアウト (" ++ toString timeout ++ "ms)"

/-- The timeout rejection message of `fetchWithTimeout`. -/
def requestTimeoutMsg (timeout : Nat) : String :=
  "リクエストタイムアウト (" ++ toString timeout ++ "ms)"

/-- `DriveImageHandler.fetchWithoutPreflight`, embedded from the
source.  A timer set for `timeout` ms races the transport: if the
transport settles strictly earlier, its outcome is propagated at its
latency and the timer is cleared; otherwise the timer fires first,
aborts the in-flight request and rejects with the timeout message at
the deadline (an ensuing `AbortError` is mapped to the same message). -/
def fetchWithoutPreflight (env : TransportEnv) (timeout : Nat) : FetchRes :=
  if env.latencyMs < timeout then
    { result := env.server, settledAtMs := env.latencyMs, aborted := false }
  else
    { result := .error (uploadTimeoutMsg timeout), settledAtMs := timeout, aborted := true }

/-- `DriveImageHandler.fetchWithTimeout` (the GET variant), embedded
from the source; identical race, different rejection message. -/
def fetchWithTimeout (env : TransportEnv) (timeout : Nat) : FetchRes :=
  if env.latencyMs < timeout then
    { result := env.server, settledAtMs := env.latencyMs, aborted := false }
  else
    { result := .error (requestTimeoutMsg timeout), settledAtMs := timeout, aborted := true }

/-- The request actually handed to `fetch` by `uploadImage`: the
endpoint URL, the `Content-Type` header, and the `method` field of the
JSON request body (the transport encoding tag). -/
structure UploadRequest where
  url : String
  contentType : String
  encoding : String
deriving DecidableEq, Repr

/-- Observable side effects of one `uploadImage` run. -/
inductive UEffect where
  | showLoading
  | fetchCall (req : UploadRequest)
  | setImage (src : String) (alt : String)
  | hideLoading
  | showMessage (kind : String)
deriving DecidableEq, Repr

/-- The record `uploadImage` resolves with on success:
`{...result, uploadTime, fileName}`. -/
structure UploadResult where
  id : String
  url : String
  name : String
  method : String
  uploadTime : Nat
  fileName : String
deriving DecidableEq, Repr

/-- Environment of one `uploadImage` run: the outcome of
`fileToBase64` (which can reject) and the transport environment of the
single POST request. -/
structure UploadEnv where
  b64 : Except String String
  transport : TransportEnv

/-- The one request shape `uploadImage` can issue: the base64 JSON
envelope (`requestData` with `method: 'base64'`) sent with
`Content-Type: text/plain` to `options.webAppUrl`. -/
def envelopeRequest (options : Options) : UploadRequest :=
  { url := options.webAppUrl, contentType := "text/plain", encoding := "base64" }

/-- The `catch` block of `uploadImage`: hide the loading overlay, show
`formatUploadError(error, file.name)` as an error toast, and re-throw
the enriched error carrying that formatted message. -/
def uploadFailRes (file : JsFile) (origMsg : String) (pre : List UEffect) :
    Except String UploadResult × List UEffect :=
  (.error (formatUploadError origMsg file.name),
   pre ++ [.hideLoading, .showMessage "error"])

/-- `DriveImageHandler.uploadImage`, embedded from the source with the
`try`/`catch` flattened: every `throw` lands in the `catch` block,
which hides the loading overlay, shows `formatUploadError(...)` as an
error toast and re-throws the enriched error (modelled as
`Except.error` carrying the formatted message).  The request body is
always the base64 JSON envelope sent as `Content-Type: text/plain`. -/
def uploadImage (env : UploadEnv) (file : JsFile) (options : Options) :
    Except String UploadResult × List UEffect :=
  if (validateFile file options).isSome then
    uploadFailRes file ("ファイル検証に失敗: " ++ file.name) []
  else
    match env.b64 with
    | .error e => uploadFailRes file e [.showLoading]
    | .ok _ =>
      match (fetchWithoutPreflight env.transport (jsOr options.uploadTimeout 30000)).result with
      | .error m =>
        uploadFailRes file m [.showLoading, .fetchCall (envelopeRequest options)]
      | .ok response =>
        if ¬ response.ok then
          uploadFailRes file
            ("HTTP " ++ toString response.status ++ ": " ++ response.statusText
              ++ "\n" ++ response.text)
            [.showLoading, .fetchCall (envelopeRequest options)]
        else
          match response.json with
          | .error e =>
            uploadFailRes file e [.showLoading, .fetchCall (envelopeRequest options)]
          | .ok result =>
            if result.success then
              (.ok { id := result.id, url := result.url, name := result.name,
                     method := result.method,
                     uploadTime :=
                       (fetchWithoutPreflight env.transport
                         (jsOr options.uploadTimeout 30000)).settledAtMs,
                     fileName := file.name },
               [.showLoading, .fetchCall (envelopeRequest options),
                .setImage result.url (jsOrS result.name file.name),
                .hideLoading, .showMessage "success"])
            else
              uploadFailRes file ("アップロードに失敗: " ++ jsOrS result.error "原因不明")
                [.showLoading, .fetchCall (envelopeRequest options)]

/-- One gallery item of a listing response
(`{id, url, thumbnail?, name}`); `""` models an absent thumbnail. -/
structure GalleryItem where
  id : String
  url : String
  thumbnail : String
  name : String
deriving DecidableEq, Repr

/-- One entry of `DriveImageHandler.cache`: `{data, timestamp}`. -/
structure CacheEntry where
  data : List GalleryItem
  timestamp : Nat
deriving DecidableEq, Repr

/-- The static `cache` `Map`, modelled as an insertion-ordered
association list (head = first-inserted key, as iterated by
`Map.keys()`). -/
abbrev Cache := List (String × CacheEntry)

/-- JS `Map.get`. -/
def getCache (cache : Cache) (key : String) : Option CacheEntry :=
  match cache with
  | [] => none
  | (k, v) :: rest => if k = key then some v else getCache rest key

/-- JS `Map.set`: updating an existing key keeps its insertion
position; a new key is appended at the end. -/
def mapSet (cache : Cache) (key : String) (v : CacheEntry) : Cache :=
  match cache with
  | [] => [(key, v)]
  | (k, v') :: rest =>
    if k = key then (k, v) :: rest else (k, v') :: mapSet rest key v

/-- JS `Map.delete`: removes the (first) entry with the given key. -/
def mapDelete (cache : Cache) (key : String) : Cache :=
  match cache with
  | [] => []
  | (k, v) :: rest => if k = key then rest else (k, v) :: mapDelete rest key

/-- `DriveImageHandler.setCache`, embedded from the source: store
`{data, timestamp: Date.now()}` under `key`, then, if the map now holds
more than 50 entries, delete `this.cache.keys().next().value` — the
first-inserted key. -/
def setCache (cache : Cache) (key : String) (data : List GalleryItem) (now : Nat) : Cache :=
  let cache' := mapSet cache key ⟨data, now⟩
  if 50 < cache'.length then
    match cache'.head? with
    | some (firstKey, _) => mapDelete cache' firstKey
    | none => cache'
  else cache'

/-- `DriveImageHandler.clearCache`, embedded from the source. -/
def clearCache (_cache : Cache) : Cache := []

/-- The cache key computed by `loadGallery`. -/
def galleryKey (options : Options) : String :=
  "drive_gallery_" ++ options.webAppUrl

/-- A gallery listing response body, `{success, images?, error?}`;
`result.images || []` makes an absent `images` the empty list. -/
structure GalleryBody where
  success : Bool
  images : List GalleryItem
  error : String
deriving DecidableEq, Repr

/-- A settled gallery `Response`. -/
structure GalleryResponse where
  ok : Bool
  status : Nat
  statusText : String
  text : String
  json : Except String GalleryBody
deriving Repr

/-- Environment of one gallery refresh: latency and settling value of
the single GET request. -/
structure GalleryEnv where
  latencyMs : Nat
  server : Except String GalleryResponse

/-- Timed result of `fetchWithTimeout` for a gallery GET, same timer
race as `fetchWithoutPreflight` but with the GET rejection message. -/
def galleryFetch (env : GalleryEnv) (timeout : Nat) : Except String GalleryResponse :=
  if env.latencyMs < timeout then env.server
  else .error (requestTimeoutMsg timeout)

/-- Observable side effects of one `loadGallery` run. -/
inductive GEffect where
  | fetchCall (url : String)
  | staleWarning
  | errorToast (msg : String)
deriving DecidableEq, Repr

/-- The GET URL built by `loadGallery`, with `Date.now()` as cache
buster. -/
def galleryUrl (options : Options) (now : Nat) : String :=
  options.webAppUrl ++ "?action=gallery&_t=" ++ toString now

/-- The `catch` block of `loadGallery`: if a cache entry existed (even
a stale one), serve its items with a "using stale data" warning and
leave the cache untouched; otherwise show the formatted gallery error
and return `[]`. -/
def galleryFail (cache : Cache) (options : Options) (now : Nat) (origMsg : String) :
    List GalleryItem × Cache × List GEffect :=
  match getCache cache (galleryKey options) with
  | some entry =>
    (entry.data, cache, [.fetchCall (galleryUrl options now), .staleWarning])
  | none =>
    ([], cache,
      [.fetchCall (galleryUrl options now),
       .errorToast ("ギャラリー読み込みエラー: " ++ formatGalleryError origMsg)])

/-- The refresh path of `loadGallery` (reached when no fresh cache
entry exists): one GET through `fetchWithTimeout`; on a successful,
`success: true` response the images replace the cache entry; every
failure lands in `galleryFail`. -/
def galleryRefresh (cache : Cache) (options : Options) (now : Nat) (env : GalleryEnv) :
    List GalleryItem × Cache × List GEffect :=
  match galleryFetch env (jsOr options.galleryTimeout 15000) with
  | .error m => galleryFail cache options now m
  | .ok response =>
    if ¬ response.ok then
      galleryFail cache options now
        ("HTTP " ++ toString response.status ++ ": " ++ response.statusText
          ++ "\n" ++ response.text)
    else
      match response.json with
      | .error e => galleryFail cache options now e
      | .ok result =>
        if result.success then
          (result.images, setCache cache (galleryKey options) result.images now,
           [.fetchCall (galleryUrl options now)])
        else galleryFail cache options now (jsOrS result.error "ギャラリーの読み込みに失敗しました")

/-- `DriveImageHandler.loadGallery`, embedded from the source.  Inputs
are the current cache, the options, the current time (`Date.now()`)
and the environment of the (at most one) GET request; outputs are the
returned item list, the cache after the call and the effect trace.
The `try`/`catch` is flattened: every failure of the refresh (fetch
rejection or timeout, non-ok HTTP status, JSON parse throw, or a
`success: false` body) falls into the `catch`, which serves the cached
entry with a stale warning when one exists and otherwise reports the
error and returns `[]`. -/
def loadGallery (cache : Cache) (options : Options) (now : Nat) (env : GalleryEnv) :
    List GalleryItem × Cache × List GEffect :=
  match getCache cache (galleryKey options) with
  | some entry =>
    if now - entry.timestamp < jsOr options.galleryCacheTimeout 300000 then
      (entry.data, cache, [])
    else galleryRefresh cache options now env
  | none => galleryRefresh cache options now env

/-- One entry of `results.errors` in `uploadMultipleImages`:
`{file, error}`. -/
structure BatchError where
  file : String
  error : String
deriving DecidableEq, Repr

/-- The `results` object of `uploadMultipleImages`. -/
structure BatchResults where
  success : List UploadResult
  errors : List BatchError
deriving DecidableEq, Repr

/-- One `progressCallback` invocation:
`{completed, total, file, status, error?}`. -/
structure ProgressEvent where
  completed : Nat
  total : Nat
  file : String
  status : String
  error : Option String
deriving DecidableEq, Repr

/-- Structural worker for `chunksOf`; the fuel argument bounds the
number of windows (any fuel `≥ l.length` gives the same answer). -/
def chunksOfAux (n : Nat) : Nat → List α → List (List α)
  | _, [] => []
  | 0, _ :: _ => []
  | fuel + 1, x :: xs =>
    if n = 0 then []
    else ((x :: xs).take n) :: chunksOfAux n fuel ((x :: xs).drop n)

/-- Consecutive windows of size `n` of a list, as produced by the
`files.slice(i, i + maxConcurrent)` loop. -/
def chunksOf (n : Nat) (l : List α) : List (List α) :=
  chunksOfAux n l.length l

/-- The per-chunk concurrency bound actually used by
`uploadMultipleImages`:
`Math.min(options.maxConcurrentUploads || 2, 2)`. -/
def batchChunkSize (options : Options) : Nat :=
  min (jsOr options.maxConcurrentUploads 2) 2

/-- The window partition the batch loop iterates over (empty input is
returned before the loop). -/
def batchWindows (files : List JsFile) (options : Options) : List (List JsFile) :=
  if files = [] then [] else chunksOf (batchChunkSize options) files

/-- Processing one file inside a window: run `uploadImage`, push the
settled outcome onto `results.success` / `results.errors`, and invoke
the progress callback with `completed = success.length +
errors.length`.  The window's members settle in list order in this
model; the claims proved below do not depend on the intra-window
completion order, which the source leaves to the event loop. -/
def processFile (envOf : JsFile → UploadEnv) (options : Options) (total : Nat)
    (st : BatchResults × List ProgressEvent) (file : JsFile) :
    BatchResults × List ProgressEvent :=
  match (uploadImage (envOf file) file options).1 with
  | .ok r =>
    let res : BatchResults := { st.1 with success := st.1.success ++ [r] }
    (res, st.2 ++ [{ completed := res.success.length + res.errors.length,
                     total := total, file := file.name, status := "success",
                     error := none }])
  | .error m =>
    let res : BatchResults := { st.1 with errors := st.1.errors ++ [⟨file.name, m⟩] }
    (res, st.2 ++ [{ completed := res.success.length + res.errors.length,
                     total := total, file := file.name, status := "error",
                     error := some m }])

/-- `DriveImageHandler.uploadMultipleImages`, embedded from the
source: an early return for a missing/empty file list, then a loop
over consecutive windows of `batchChunkSize` files, awaiting every
upload of a window (`Promise.all`) before the next window starts (the
inter-chunk 500 ms delay does not affect the data flow and is not
modelled).  `envOf` supplies each file's upload environment.  Returns
the `results` object and the progress-event trace. -/
def uploadMultipleImages (envOf : JsFile → UploadEnv) (files : List JsFile)
    (options : Options) : BatchResults × List ProgressEvent :=
  if files = [] then (⟨[], []⟩, [])
  else
    (batchWindows files options).foldl
      (fun st window => window.foldl (processFile envOf options files.length) st)
      (⟨[], []⟩, [])

/-- The POST requests occurring in an upload effect trace. -/
def requestsOf (trace : List UEffect) : List UploadRequest :=
  trace.filterMap fun e =>
    match e with
    | .fetchCall req => some req
    | _ => none

/-- The GET requests occurring in a gallery effect trace. -/
def galleryFetchCount (trace : List GEffect) : Nat :=
  (trace.filter fun e =>
    match e with
    | .fetchCall _ => true
    | _ => false).length

/-- The refresh attempt of `loadGallery` fails: the fetch rejects or
times out, or the response has a non-ok status, or its body fails to
parse, or the body reports `success: false`. -/
def galleryRefreshFails (env : GalleryEnv) (timeout : Nat) : Bool :=
  match galleryFetch env timeout with
  | .error _ => true
  | .ok response =>
    !response.ok ||
      (match response.json with
       | .error _ => true
       | .ok result => !result.success)

/-- A Unicode control character (category `Cc`): the claim's reading of
"no control characters" in validation check 4. -/
def isControlChar (c : Char) : Bool :=
  c.toNat ≤ 0x1F || (0x7F ≤ c.toNat && c.toNat ≤ 0x9F)

/-- Validator written from claim C8's words as stated: (1) `mimeType`
present in `allowedMimeTypes`, (2) `sizeBytes ≤ maxFileSizeBytes`,
(3) name length ≤ 255 *code points*, (4) name contains no control
characters and none of the reserved characters, in that order,
short-circuiting on the first failure. -/
def validateFileClaimC8 (file : JsFile) (options : Options) : Option ValidationError :=
  if ¬ options.allowedMimeTypes.contains file.type then some .unsupportedType
  else if ¬ (file.size ≤ options.maxFileSize) then some .tooLarge
  else if ¬ (file.name.toList.length ≤ 255) then some .nameTooLong
  else if ¬ (file.name.toList.all fun c =>
      !(isControlChar c) && !(reservedChars.contains c)) then some .nameInvalid
  else none

/-- Validator written from the amended claim C8: a preliminary
empty-`mimeType` check, then (1) `mimeType` in `allowedMimeTypes`,
(2) `sizeBytes ≤ maxFileSizeBytes`, (3) name length ≤ 255 UTF-16 code
units (JS `String.length`), (4) name contains no character in
U+0000–U+001F and none of the reserved characters, in that order,
short-circuiting on the first failure. -/
def validateFileAmendedC8 (file : JsFile) (options : Options) : Option ValidationError :=
  if file.type = "" then some .noType
  else if ¬ options.allowedMimeTypes.contains file.type then some .unsupportedType
  else if ¬ (file.size ≤ options.maxFileSize) then some .tooLarge
  else if ¬ (utf16Length file.name.toList ≤ 255) then some .nameTooLong
  else if ¬ (file.name.toList.all fun c =>
      !(c.toNat ≤ 0x1F) && !(reservedChars.contains c)) then some .nameInvalid
  else none

section ValidationClaims

/-- Per-character: matching the source's `dangerousChars` regex is the
complement of passing the amended check 4. -/
lemma isDangerousChar_eq_not_pass (c : Char) :
    isDangerousChar c = !(!(c.toNat ≤ 0x1F) && !(reservedChars.contains c)) := by
  simp [isDangerousChar, Bool.not_and, Bool.not_not, Bool.or_comm]

/-- The source's name scan is the complement of the amended claim's
"name contains none of ..." condition. -/
lemma any_dangerous_eq_not_all (l : List Char) :
    l.any isDangerousChar =
      !(l.all fun c => !(c.toNat ≤ 0x1F) && !(reservedChars.contains c)) := by
  rw [List.any_eq_not_all_not]
  have h : (fun x : Char => !isDangerousChar x) =
      (fun c : Char => !(c.toNat ≤ 0x1F) && !(reservedChars.contains c)) := by
    funext c
    rw [isDangerousChar_eq_not_pass, Bool.not_not]
  rw [h]

/-- Claim C8 (amended): `validateFile` performs exactly the amended
claim's checks, in that order, short-circuiting on the first failure,
so only the first failing check's error is reported: an empty-type
pre-check, MIME-type membership, `size ≤ maxFileSize`, name length
≤ 255 UTF-16 code units, and no character in U+0000–U+001F nor any
reserved character `< > : " / \ | ? *`. -/
theorem validateFile_matches_amended_claim (file : JsFile) (options : Options) :
    validateFile file options = validateFileAmendedC8 file options := by
  unfold validateFile validateFileAmendedC8
  simp only [Nat.not_le, any_dangerous_eq_not_all, Bool.not_eq_true', Bool.not_eq_false,
    Bool.not_eq_true]

set_option maxRecDepth 8000 in
/-- Claim C8 as stated is false on the code: a name containing the
control character U+007F (DEL) passes `validateFile` although the
claim's check 4 ("no control characters") rejects it, and a name of
129 astral code points (258 UTF-16 units) is rejected as too long by
`validateFile` although it is well within the claim's 255 code
points. -/
theorem validateFile_claimC8_counterexample :
    (validateFile ⟨"ab\x7F.png", "image/png", 1⟩ ⟨"u", 100, ["image/png"], 0, 0, 0, 0⟩ = none ∧
     validateFileClaimC8 ⟨"ab\x7F.png", "image/png", 1⟩ ⟨"u", 100, ["image/png"], 0, 0, 0, 0⟩ =
       some .nameInvalid) ∧
    (validateFile ⟨⟨List.replicate 129 (Char.ofNat 0x10000)⟩, "image/png", 1⟩
        ⟨"u", 100, ["image/png"], 0, 0, 0, 0⟩ = some .nameTooLong ∧
     validateFileClaimC8 ⟨⟨List.replicate 129 (Char.ofNat 0x10000)⟩, "image/png", 1⟩
        ⟨"u", 100, ["image/png"], 0, 0, 0, 0⟩ = none) := by
  refine ⟨⟨by decide, by decide⟩, ⟨?_, ?_⟩⟩ <;> rfl

end ValidationClaims

section UploadClaims

/-- Case shape of `uploadImage`: every run either lands in the `catch`
block (`uploadFailRes`) after one of three effect prefixes, or
succeeds with the full success trace. -/
lemma uploadImage_shape (env : UploadEnv) (file : JsFile) (options : Options) :
    (∃ origMsg pre, uploadImage env file options = uploadFailRes file origMsg pre ∧
        (pre = [] ∨ pre = [.showLoading] ∨
         pre = [.showLoading, .fetchCall (envelopeRequest options)])) ∨
    (∃ r url alt, uploadImage env file options =
        (.ok r, [.showLoading, .fetchCall (envelopeRequest options), .setImage url alt,
                 .hideLoading, .showMessage "success"])) := by
  unfold uploadImage
  split
  · exact .inl ⟨_, _, rfl, .inl rfl⟩
  · split
    · exact .inl ⟨_, _, rfl, .inr (.inl rfl)⟩
    · split
      · exact .inl ⟨_, _, rfl, .inr (.inr rfl)⟩
      · split
        · exact .inl ⟨_, _, rfl, .inr (.inr rfl)⟩
        · split
          · exact .inl ⟨_, _, rfl, .inr (.inr rfl)⟩
          · split
            · exact .inr ⟨_, _, _, rfl⟩
            · exact .inl ⟨_, _, rfl, .inr (.inr rfl)⟩

/-- Claim C3 (code bug), at the spec's own scenario `timeout = 10ms`,
server responds in `50ms`: the wrapper aborts the in-flight request
and settles at the 10 ms deadline with the timeout rejection — not at
50 ms with the server's response — but the outcome is *not* classified
as a timeout: `formatUploadError`'s timeout branch tests for the ASCII
substring `"timeout"`, which the katakana rejection message never
contains, so the outcome is formatted by the generic fallback branch
instead of as `通信タイムアウト`. -/
theorem uploadTimeout_aborts_but_is_misclassified :
    (∀ server : Except String JsResponse,
      fetchWithoutPreflight ⟨50, server⟩ 10 =
        ⟨.error (uploadTimeoutMsg 10), 10, true⟩) ∧
    (uploadImage
        ⟨.ok "data", ⟨50, .ok ⟨true, 200, "OK", "",
            .ok ⟨true, "id1", "http://img", "n", "base64", ""⟩⟩⟩⟩
        ⟨"photo.png", "image/png", 1⟩
        ⟨"u", 100, ["image/png"], 10, 0, 0, 0⟩).1 =
      .error "\"photo.png\" のアップロードに失敗しました: アップロードタイムアウト (10ms)" ∧
    formatUploadError (uploadTimeoutMsg 10) "photo.png" ≠
      "\"photo.png\" のアップロードに失敗しました: 通信タイムアウト" := by
  refine ⟨fun server => ?_, by rfl, by decide⟩
  simp [fetchWithoutPreflight]

/-- Claim C4's counterexample: for a valid asset whose encoding
succeeds and whose transfer succeeds, the (single) request
`uploadImage` issues is the base64 `text/plain` envelope — no
structured (multi-part) transmission is attempted first, although
nothing raised during encoding. -/
theorem uploadImage_no_structured_attempt :
    (uploadImage
        ⟨.ok "data", ⟨5, .ok ⟨true, 200, "OK", "",
            .ok ⟨true, "id1", "http://img", "n", "base64", ""⟩⟩⟩⟩
        ⟨"a.png", "image/png", 1⟩
        ⟨"u", 100, ["image/png"], 0, 0, 0, 0⟩).1.isOk = true ∧
    requestsOf (uploadImage
        ⟨.ok "data", ⟨5, .ok ⟨true, 200, "OK", "",
            .ok ⟨true, "id1", "http://img", "n", "base64", ""⟩⟩⟩⟩
        ⟨"a.png", "image/png", 1⟩
        ⟨"u", 100, ["image/png"], 0, 0, 0, 0⟩).2 =
      [⟨"u", "text/plain", "base64"⟩] := by
  constructor <;> rfl

/-- Claim C4 (amended): every run of `uploadImage` issues at most one
request, and any request it issues is the base64 `text/plain`
envelope; there is no structured (multi-part) attempt, no fallback
between encodings and no retry. -/
theorem uploadImage_envelope_only (env : UploadEnv) (file : JsFile) (options : Options) :
    (requestsOf (uploadImage env file options).2).length ≤ 1 ∧
    ∀ req ∈ requestsOf (uploadImage env file options).2, req = envelopeRequest options := by
  rcases uploadImage_shape env file options with ⟨m, pre, heq, hpre⟩ | ⟨r, url, alt, heq⟩
  · rcases hpre with rfl | rfl | rfl <;>
      simp [heq, uploadFailRes, requestsOf]
  · simp [heq, requestsOf]

/-- Claim C5: a file that fails validation produces a failure outcome
immediately, with no network request issued. -/
theorem uploadImage_invalid_no_network (env : UploadEnv) (file : JsFile) (options : Options)
    (h : (validateFile file options).isSome = true) :
    (∃ m, (uploadImage env file options).1 = .error m) ∧
    requestsOf (uploadImage env file options).2 = [] := by
  unfold uploadImage
  rw [if_pos h]
  exact ⟨⟨_, rfl⟩, rfl⟩

/-- Witness for `uploadImage_invalid_no_network`: a `text/plain` file
against an image-only allow-list is rejected with no request, whatever
the network would have answered. -/
theorem uploadImage_invalid_no_network_witness :
    (∃ m, (uploadImage ⟨.ok "data", ⟨0, .error "net"⟩⟩ ⟨"a.txt", "text/plain", 1⟩
        ⟨"u", 100, ["image/png"], 0, 0, 0, 0⟩).1 = .error m) ∧
    requestsOf (uploadImage ⟨.ok "data", ⟨0, .error "net"⟩⟩ ⟨"a.txt", "text/plain", 1⟩
        ⟨"u", 100, ["image/png"], 0, 0, 0, 0⟩).2 = [] :=
  uploadImage_invalid_no_network _ _ _ (by decide)

/-- Claim C10: whenever `uploadImage` ends in a failure — validation
failure, encoding failure, timeout, network error, non-ok HTTP status,
JSON parse failure, or a `success: false` body — no `setImage` editor
insertion occurs; the editor document is touched only on the success
path. -/
theorem uploadImage_failure_no_setImage (env : UploadEnv) (file : JsFile) (options : Options)
    (h : ∃ m, (uploadImage env file options).1 = Except.error m) :
    ∀ src alt, UEffect.setImage src alt ∉ (uploadImage env file options).2 := by
  intro src alt hmem
  obtain ⟨m, hm⟩ := h
  rcases uploadImage_shape env file options with ⟨m', pre, heq, hpre⟩ | ⟨r, url, alt', heq⟩
  · rw [heq] at hmem
    rcases hpre with rfl | rfl | rfl <;> simp [uploadFailRes] at hmem
  · rw [heq] at hm
    simp at hm

/-- Witness for `uploadImage_failure_no_setImage`: a 500 response
yields a failure and a trace without any editor insertion. -/
theorem uploadImage_failure_no_setImage_witness :
    UEffect.setImage "http://img" "a.png" ∉
      (uploadImage ⟨.ok "data", ⟨5, .ok ⟨false, 500, "Server Error", "boom",
          .error "not json"⟩⟩⟩ ⟨"a.png", "image/png", 1⟩
        ⟨"u", 100, ["image/png"], 0, 0, 0, 0⟩).2 :=
  uploadImage_failure_no_setImage
    ⟨.ok "data", ⟨5, .ok ⟨false, 500, "Server Error", "boom", .error "not json"⟩⟩⟩
    ⟨"a.png", "image/png", 1⟩ ⟨"u", 100, ["image/png"], 0, 0, 0, 0⟩
    ⟨_, rfl⟩ "http://img" "a.png"

end UploadClaims

section CacheClaims

/-- `Map.set` on an absent key appends at the end. -/
lemma mapSet_of_absent (cache : Cache) (key : String) (v : CacheEntry)
    (h : getCache cache key = none) : mapSet cache key v = cache ++ [(key, v)] := by
  induction cache with
  | nil => rfl
  | cons kv rest ih =>
    obtain ⟨k, v'⟩ := kv
    unfold getCache at h
    unfold mapSet
    by_cases hk : k = key
    · simp [hk] at h
    · simp only [if_neg hk] at h ⊢
      rw [ih h]
      simp

/-- `Map.set` on a present key keeps the length. -/
lemma length_mapSet_of_present (cache : Cache) (key : String) (v : CacheEntry)
    (h : getCache cache key ≠ none) : (mapSet cache key v).length = cache.length := by
  induction cache with
  | nil => simp [getCache] at h
  | cons kv rest ih =>
    obtain ⟨k, v'⟩ := kv
    unfold getCache at h
    unfold mapSet
    by_cases hk : k = key
    · simp [hk]
    · simp only [if_neg hk] at h ⊢
      simp [ih h]

/-- `Map.set` makes the key's entry retrievable. -/
lemma getCache_mapSet_self (cache : Cache) (key : String) (v : CacheEntry) :
    getCache (mapSet cache key v) key = some v := by
  induction cache with
  | nil => simp [mapSet, getCache]
  | cons kv rest ih =>
    obtain ⟨k, v'⟩ := kv
    unfold mapSet
    by_cases hk : k = key
    · simp [getCache, hk]
    · simp only [if_neg hk]
      unfold getCache
      simp [hk, ih]

/-- Lookup distributes over an append whose left part misses the key. -/
lemma getCache_append_of_absent (l1 l2 : Cache) (key : String)
    (h : getCache l1 key = none) : getCache (l1 ++ l2) key = getCache l2 key := by
  induction l1 with
  | nil => rfl
  | cons kv rest ih =>
    obtain ⟨k, v⟩ := kv
    unfold getCache at h
    by_cases hk : k = key
    · simp [hk] at h
    · simp only [if_neg hk] at h
      simpa [getCache, hk] using ih h

/-- Claim C9: starting from a cache within the 50-entry bound,
`setCache` keeps it within the bound; inserting a key that is not yet
tracked when 50 keys are tracked evicts exactly the first-inserted
(head) entry; and re-setting a key that is already present performs a
plain in-place update with no eviction and no size change. -/
theorem setCache_bounded_eviction (cache : Cache) (key : String)
    (data : List GalleryItem) (now : Nat) (h : cache.length ≤ 50) :
    (setCache cache key data now).length ≤ 50 ∧
    (getCache cache key = none → cache.length = 50 →
      setCache cache key data now = cache.tail ++ [(key, ⟨data, now⟩)]) ∧
    (getCache cache key ≠ none →
      setCache cache key data now = mapSet cache key ⟨data, now⟩ ∧
      (setCache cache key data now).length = cache.length) := by
  refine ⟨?_, ?_, ?_⟩
  · by_cases hp : getCache cache key = none
    · rw [setCache, mapSet_of_absent cache key _ hp]
      by_cases h50 : cache.length = 50
      · cases cache with
        | nil => simp at h50
        | cons kv rest =>
          obtain ⟨k, v⟩ := kv
          simp only [List.cons_append, List.length_cons, List.length_append,
            List.length_cons, List.length_nil]
          rw [if_pos (by simp at h50 ⊢; omega)]
          simp [mapDelete]
          simp at h50
          omega
      · rw [if_neg (by simp; omega)]
        simp
        omega
    · rw [setCache]
      rw [if_neg (by rw [length_mapSet_of_present cache key _ hp]; omega)]
      rw [length_mapSet_of_present cache key _ hp]
      exact h
  · intro hab h50
    rw [setCache, mapSet_of_absent cache key _ hab]
    cases cache with
    | nil => simp at h50
    | cons kv rest =>
      obtain ⟨k, v⟩ := kv
      simp only [List.cons_append]
      rw [if_pos (by simp at h50 ⊢; omega)]
      simp [mapDelete]
  · intro hp
    rw [setCache]
    rw [if_neg (by rw [length_mapSet_of_present cache key _ hp]; omega)]
    exact ⟨rfl, length_mapSet_of_present cache key _ hp⟩

/-- Witness for `setCache_bounded_eviction` at a concrete two-entry
cache. -/
theorem setCache_bounded_eviction_witness :
    (setCache [("a", ⟨[], 0⟩), ("b", ⟨[], 1⟩)] "c" [] 2).length ≤ 50 ∧
    (getCache [("a", ⟨[], 0⟩), ("b", ⟨[], 1⟩)] "c" = none →
      ([("a", ⟨[], 0⟩), ("b", ⟨[], 1⟩)] : Cache).length = 50 →
      setCache [("a", ⟨[], 0⟩), ("b", ⟨[], 1⟩)] "c" [] 2 =
        ([("a", ⟨[], 0⟩), ("b", ⟨[], 1⟩)] : Cache).tail ++ [("c", ⟨[], 2⟩)]) ∧
    (getCache [("a", ⟨[], 0⟩), ("b", ⟨[], 1⟩)] "c" ≠ none →
      setCache [("a", ⟨[], 0⟩), ("b", ⟨[], 1⟩)] "c" [] 2 =
        mapSet [("a", ⟨[], 0⟩), ("b", ⟨[], 1⟩)] "c" ⟨[], 2⟩ ∧
      (setCache [("a", ⟨[], 0⟩), ("b", ⟨[], 1⟩)] "c" [] 2).length =
        ([("a", ⟨[], 0⟩), ("b", ⟨[], 1⟩)] : Cache).length) :=
  setCache_bounded_eviction _ _ _ _ (by decide)

end CacheClaims

section GalleryClaims

/-- After `setCache` (from a cache within the 50-entry bound) the key
maps to the fresh entry: eviction can never remove the key just
written. -/
lemma getCache_setCache_self (cache : Cache) (key : String)
    (data : List GalleryItem) (now : Nat) (h : cache.length ≤ 50) :
    getCache (setCache cache key data now) key = some ⟨data, now⟩ := by
  by_cases hp : getCache cache key = none
  · rw [setCache, mapSet_of_absent _ _ _ hp]
    by_cases h51 : 50 < (cache ++ [(key, (⟨data, now⟩ : CacheEntry))]).length
    · rw [if_pos h51]
      cases cache with
      | nil => simp at h51
      | cons kv rest =>
        obtain ⟨k0, v0⟩ := kv
        have hrest : getCache rest key = none := by
          unfold getCache at hp
          by_cases hk : k0 = key
          · simp [hk] at hp
          · simpa [hk] using hp
        simp only [List.cons_append, List.head?_cons]
        show getCache
          (mapDelete ((k0, v0) :: (rest ++ [(key, (⟨data, now⟩ : CacheEntry))])) k0) key = _
        have hdel : mapDelete ((k0, v0) :: (rest ++ [(key, (⟨data, now⟩ : CacheEntry))])) k0
            = rest ++ [(key, ⟨data, now⟩)] := by simp [mapDelete]
        rw [hdel, getCache_append_of_absent _ _ _ hrest]
        simp [getCache]
    · rw [if_neg h51, getCache_append_of_absent _ _ _ hp]
      simp [getCache]
  · rw [setCache, if_neg (by rw [length_mapSet_of_present _ _ _ hp]; omega)]
    exact getCache_mapSet_self _ _ _

/-- Claim C6: with an existing (stale) cache entry, any failing
refresh — rejection or timeout of the GET, non-ok HTTP status, JSON
parse failure, or a `success: false` body — serves the previous
entry's items unchanged, signals staleness non-fatally, and leaves the
cache map untouched; an entry is replaced only by a successful
fetch. -/
theorem loadGallery_stale_serve (cache : Cache) (options : Options) (now : Nat)
    (env : GalleryEnv) (entry : CacheEntry)
    (hc : getCache cache (galleryKey options) = some entry)
    (hstale : ¬ (now - entry.timestamp < jsOr options.galleryCacheTimeout 300000))
    (hfail : galleryRefreshFails env (jsOr options.galleryTimeout 15000) = true) :
    loadGallery cache options now env =
      (entry.data, cache, [.fetchCall (galleryUrl options now), .staleWarning]) := by
  unfold loadGallery
  simp only [hc]
  rw [if_neg hstale]
  unfold galleryRefresh
  unfold galleryRefreshFails at hfail
  cases hg : galleryFetch env (jsOr options.galleryTimeout 15000) with
  | error m => simp [galleryFail, hc]
  | ok response =>
    rw [hg] at hfail
    simp only [] at hfail ⊢
    by_cases hok : response.ok = true
    · rw [hok] at hfail
      simp only [Bool.not_true, Bool.false_or] at hfail
      simp only [hok, not_true, if_false]
      cases hj : response.json with
      | error e => simp [galleryFail, hc]
      | ok result =>
        rw [hj] at hfail
        have hs : result.success = false := by simpa using hfail
        simp [hs, galleryFail, hc]
    · have hok' : response.ok = false := by
        cases hr : response.ok
        · rfl
        · exact absurd hr hok
      simp [hok', galleryFail, hc]

/-- Witness for `loadGallery_stale_serve`: a stale entry plus a timed
out refresh yields the cached items, an unchanged cache and the stale
warning. -/
theorem loadGallery_stale_serve_witness :
    loadGallery [("drive_gallery_u", ⟨[⟨"i", "h", "", "n"⟩], 0⟩)]
        ⟨"u", 100, ["image/png"], 0, 0, 20, 1000⟩ 5000 ⟨99999, .error "never"⟩ =
      ([⟨"i", "h", "", "n"⟩], [("drive_gallery_u", ⟨[⟨"i", "h", "", "n"⟩], 0⟩)],
        [.fetchCall (galleryUrl ⟨"u", 100, ["image/png"], 0, 0, 20, 1000⟩ 5000),
         .staleWarning]) :=
  loadGallery_stale_serve
    [("drive_gallery_u", ⟨[⟨"i", "h", "", "n"⟩], 0⟩)]
    ⟨"u", 100, ["image/png"], 0, 0, 20, 1000⟩ 5000 ⟨99999, .error "never"⟩
    ⟨[⟨"i", "h", "", "n"⟩], 0⟩ (by rfl) (by decide) (by rfl)

/-- Claim C7: starting from a cold cache (within the capacity bound),
a first `loadGallery` whose fetch succeeds stores the images and
issues exactly one GET, and a second call within the TTL returns the
same items with no network activity and no cache change, whatever the
second call's network environment would have done. -/
theorem loadGallery_fresh_cache_single_fetch (cache : Cache) (options : Options)
    (t1 t2 : Nat) (env1 env2 : GalleryEnv) (response : GalleryResponse)
    (body : GalleryBody) (hlen : cache.length ≤ 50)
    (hcold : getCache cache (galleryKey options) = none)
    (hfetch : galleryFetch env1 (jsOr options.galleryTimeout 15000) = .ok response)
    (hok : response.ok = true) (hjson : response.json = .ok body)
    (hsucc : body.success = true)
    (hfresh : t2 - t1 < jsOr options.galleryCacheTimeout 300000) :
    loadGallery cache options t1 env1 =
      (body.images, setCache cache (galleryKey options) body.images t1,
        [.fetchCall (galleryUrl options t1)]) ∧
    galleryFetchCount [.fetchCall (galleryUrl options t1)] = 1 ∧
    loadGallery (setCache cache (galleryKey options) body.images t1) options t2 env2 =
      (body.images, setCache cache (galleryKey options) body.images t1, []) := by
  refine ⟨?_, rfl, ?_⟩
  · unfold loadGallery
    simp only [hcold]
    unfold galleryRefresh
    rw [hfetch]
    simp [hok, hjson, hsucc]
  · have hlook := getCache_setCache_self cache (galleryKey options) body.images t1 hlen
    unfold loadGallery
    simp only [hlook]
    simp [hfresh]

/-- Witness for `loadGallery_fresh_cache_single_fetch`: cold cache,
successful first fetch at `t=0`, second call at `t=100` within a
1000 ms TTL returns the cached item with an empty effect trace. -/
theorem loadGallery_fresh_cache_single_fetch_witness :
    loadGallery [] ⟨"u", 100, ["image/png"], 0, 0, 20, 1000⟩ 0
        ⟨5, .ok ⟨true, 200, "OK", "", .ok ⟨true, [⟨"i", "h", "", "n"⟩], ""⟩⟩⟩ =
      ([⟨"i", "h", "", "n"⟩],
        setCache [] (galleryKey ⟨"u", 100, ["image/png"], 0, 0, 20, 1000⟩)
          [⟨"i", "h", "", "n"⟩] 0,
        [.fetchCall (galleryUrl ⟨"u", 100, ["image/png"], 0, 0, 20, 1000⟩ 0)]) ∧
    galleryFetchCount
        [.fetchCall (galleryUrl ⟨"u", 100, ["image/png"], 0, 0, 20, 1000⟩ 0)] = 1 ∧
    loadGallery
        (setCache [] (galleryKey ⟨"u", 100, ["image/png"], 0, 0, 20, 1000⟩)
          [⟨"i", "h", "", "n"⟩] 0)
        ⟨"u", 100, ["image/png"], 0, 0, 20, 1000⟩ 100 ⟨3, .error "down"⟩ =
      ([⟨"i", "h", "", "n"⟩],
        setCache [] (galleryKey ⟨"u", 100, ["image/png"], 0, 0, 20, 1000⟩)
          [⟨"i", "h", "", "n"⟩] 0, []) :=
  loadGallery_fresh_cache_single_fetch [] ⟨"u", 100, ["image/png"], 0, 0, 20, 1000⟩
    0 100 ⟨5, .ok ⟨true, 200, "OK", "", .ok ⟨true, [⟨"i", "h", "", "n"⟩], ""⟩⟩⟩
    ⟨3, .error "down"⟩ ⟨true, 200, "OK", "", .ok ⟨true, [⟨"i", "h", "", "n"⟩], ""⟩⟩
    ⟨true, [⟨"i", "h", "", "n"⟩], ""⟩ (by decide) (by rfl) (by rfl) (by rfl) (by rfl)
    (by rfl) (by decide)

end GalleryClaims

section BatchClaims

/-- Concatenating the windows gives back the input (for adequate fuel
and a positive window size). -/
lemma chunksOfAux_flatten (n : Nat) (hn : n ≠ 0) :
    ∀ (fuel : Nat) (l : List α), l.length ≤ fuel → (chunksOfAux n fuel l).flatten = l := by
  intro fuel
  induction fuel with
  | zero =>
    intro l hl
    have : l = [] := List.length_eq_zero.mp (Nat.le_zero.mp hl)
    subst this
    rfl
  | succ fuel ih =>
    intro l hl
    cases l with
    | nil => rfl
    | cons x xs =>
      unfold chunksOfAux
      rw [if_neg hn]
      simp only [List.flatten_cons]
      have hdrop : (List.drop n (x :: xs)).length ≤ fuel := by
        simp only [List.length_cons] at hl
        simp only [List.length_drop, List.length_cons]
        omega
      rw [ih _ hdrop]
      exact List.take_append_drop n (x :: xs)

/-- Every window is nonempty and no longer than the window size. -/
lemma chunksOfAux_mem_size (n : Nat) (hn : n ≠ 0) :
    ∀ (fuel : Nat) (l : List α) (w : List α), l.length ≤ fuel →
      w ∈ chunksOfAux n fuel l → w ≠ [] ∧ w.length ≤ n := by
  intro fuel
  induction fuel with
  | zero =>
    intro l w hl hw
    have : l = [] := List.length_eq_zero.mp (Nat.le_zero.mp hl)
    subst this
    simp [chunksOfAux] at hw
  | succ fuel ih =>
    intro l w hl hw
    cases l with
    | nil => simp [chunksOfAux] at hw
    | cons x xs =>
      unfold chunksOfAux at hw
      rw [if_neg hn] at hw
      rcases List.mem_cons.mp hw with rfl | hw'
      · constructor
        · intro hnil
          have hlen := congrArg List.length hnil
          simp only [List.length_take, List.length_cons, List.length_nil] at hlen
          omega
        · simp only [List.length_take, List.length_cons]
          omega
      · refine ih _ _ ?_ hw'
        simp only [List.length_cons] at hl
        simp only [List.length_drop, List.length_cons]
        omega

/-- `chunksOfAux` of the empty list is empty at any fuel. -/
lemma chunksOfAux_nil (n : Nat) (fuel : Nat) :
    chunksOfAux n fuel ([] : List α) = [] := by
  cases fuel <;> rfl

/-- Every window except possibly the last has length exactly `n`. -/
lemma chunksOfAux_dropLast_size (n : Nat) (hn : n ≠ 0) :
    ∀ (fuel : Nat) (l : List α) (w : List α), l.length ≤ fuel →
      w ∈ (chunksOfAux n fuel l).dropLast → w.length = n := by
  intro fuel
  induction fuel with
  | zero =>
    intro l w hl hw
    have : l = [] := List.length_eq_zero.mp (Nat.le_zero.mp hl)
    subst this
    simp [chunksOfAux] at hw
  | succ fuel ih =>
    intro l w hl hw
    cases l with
    | nil => simp [chunksOfAux] at hw
    | cons x xs =>
      unfold chunksOfAux at hw
      rw [if_neg hn] at hw
      cases hrest : chunksOfAux n fuel ((x :: xs).drop n) with
      | nil => rw [hrest] at hw; simp at hw
      | cons r rs =>
        rw [hrest] at hw
        rw [List.dropLast_cons₂] at hw
        rcases List.mem_cons.mp hw with rfl | hw'
        · have hne : (x :: xs).drop n ≠ [] := by
            intro hnil
            rw [hnil, chunksOfAux_nil] at hrest
            exact List.noConfusion hrest
          have : n < (x :: xs).length := by
            by_contra hge
            exact hne (List.drop_eq_nil_of_le (by omega))
          simp only [List.length_take, List.length_cons] at this ⊢
          omega
        · rw [← hrest] at hw'
          refine ih _ _ ?_ hw'
          simp only [List.length_cons] at hl
          simp only [List.length_drop, List.length_cons]
          omega

/-- The window size actually used is always positive. -/
lemma batchChunkSize_pos (options : Options) : batchChunkSize options ≠ 0 := by
  unfold batchChunkSize jsOr
  split <;> omega

/-- Flattening the window partition recovers the file list. -/
lemma chunksOf_flatten (n : Nat) (hn : n ≠ 0) (l : List α) :
    (chunksOf n l).flatten = l :=
  chunksOfAux_flatten n hn l.length l le_rfl

/-- Each processed file adds exactly one outcome. -/
lemma processFile_count (envOf : JsFile → UploadEnv) (options : Options) (total : Nat)
    (st : BatchResults × List ProgressEvent) (file : JsFile) :
    (processFile envOf options total st file).1.success.length +
      (processFile envOf options total st file).1.errors.length =
      st.1.success.length + st.1.errors.length + 1 := by
  unfold processFile
  cases h : (uploadImage (envOf file) file options).1 <;> simp <;> omega

/-- Each processed file appends exactly one progress event, whose
`completed` field is the running outcome count. -/
lemma processFile_trace (envOf : JsFile → UploadEnv) (options : Options) (total : Nat)
    (st : BatchResults × List ProgressEvent) (file : JsFile) :
    (processFile envOf options total st file).2.map (fun p => p.completed) =
      st.2.map (fun p => p.completed) ++ [st.1.success.length + st.1.errors.length + 1] := by
  unfold processFile
  cases h : (uploadImage (envOf file) file options).1 <;>
    simp <;> omega

/-- Folding the per-file step over any file list adds one outcome per
file and emits consecutive `completed` counts. -/
lemma foldl_processFile_spec (envOf : JsFile → UploadEnv) (options : Options) (total : Nat) :
    ∀ (fs : List JsFile) (st : BatchResults × List ProgressEvent),
      ((fs.foldl (processFile envOf options total) st).1.success.length +
        (fs.foldl (processFile envOf options total) st).1.errors.length =
        st.1.success.length + st.1.errors.length + fs.length) ∧
      ((fs.foldl (processFile envOf options total) st).2.map (fun p => p.completed) =
        st.2.map (fun p => p.completed) ++
          List.range' (st.1.success.length + st.1.errors.length + 1) fs.length) := by
  intro fs
  induction fs with
  | nil => intro st; simp
  | cons f fs ih =>
    intro st
    rw [List.foldl_cons]
    obtain ⟨ihc, iht⟩ := ih (processFile envOf options total st f)
    constructor
    · rw [ihc, processFile_count]
      simp only [List.length_cons]
      omega
    · rw [iht, processFile_trace, processFile_count]
      simp only [List.length_cons, List.range'_succ, List.append_assoc,
        List.singleton_append]

/-- Claim C1: the batch upload is total — for every input list, every
per-file environment and every configuration it returns a report in
which each input file contributes exactly one outcome:
`successes.length + failures.length = N`. -/
theorem uploadMultipleImages_outcome_count (envOf : JsFile → UploadEnv)
    (files : List JsFile) (options : Options) :
    (uploadMultipleImages envOf files options).1.success.length +
      (uploadMultipleImages envOf files options).1.errors.length = files.length := by
  unfold uploadMultipleImages
  by_cases hf : files = []
  · simp [hf]
  · rw [if_neg hf]
    unfold batchWindows
    rw [if_neg hf, ← List.foldl_flatten,
      chunksOf_flatten _ (batchChunkSize_pos options)]
    have h := (foldl_processFile_spec envOf options files.length files (⟨[], []⟩, [])).1
    simpa using h

/-- Claim C2 (amended): the Batch Scheduler partitions the input into
consecutive windows of size `min maxConcurrentUploads 2` — the handler
caps concurrency at 2 and defaults an absent value to 2, so the
extension's documented default of 3 also yields windows of 2 — every
window except possibly the last having exactly that size, the windows
concatenating back to the input in order, and the progress trace
settling one window after another with `completed` counting `1..N`. -/
theorem uploadMultipleImages_window_partition (envOf : JsFile → UploadEnv)
    (files : List JsFile) (options : Options)
    (h : 0 < options.maxConcurrentUploads) :
    batchWindows files options = chunksOf (min options.maxConcurrentUploads 2) files ∧
    (batchWindows files options).flatten = files ∧
    (∀ w ∈ batchWindows files options,
      w ≠ [] ∧ w.length ≤ min options.maxConcurrentUploads 2) ∧
    (∀ w ∈ (batchWindows files options).dropLast,
      w.length = min options.maxConcurrentUploads 2) ∧
    (uploadMultipleImages envOf files options).2.map (fun p => p.completed) =
      List.range' 1 files.length := by
  have hsize : batchChunkSize options = min options.maxConcurrentUploads 2 := by
    unfold batchChunkSize jsOr
    rw [if_neg (by omega)]
  have hwin : batchWindows files options = chunksOf (min options.maxConcurrentUploads 2) files := by
    unfold batchWindows
    by_cases hf : files = []
    · rw [if_pos hf, hf]
      unfold chunksOf
      rfl
    · rw [if_neg hf, hsize]
  have hpos : min options.maxConcurrentUploads 2 ≠ 0 := by omega
  refine ⟨hwin, ?_, ?_, ?_, ?_⟩
  · rw [hwin]
    exact chunksOf_flatten _ hpos files
  · intro w hw
    rw [hwin] at hw
    exact chunksOfAux_mem_size _ hpos _ _ _ le_rfl hw
  · intro w hw
    rw [hwin] at hw
    exact chunksOfAux_dropLast_size _ hpos _ _ _ le_rfl hw
  · unfold uploadMultipleImages
    by_cases hf : files = []
    · simp [hf]
    · rw [if_neg hf]
      unfold batchWindows
      rw [if_neg hf, ← List.foldl_flatten,
        chunksOf_flatten _ (batchChunkSize_pos options)]
      have ht := (foldl_processFile_spec envOf options files.length files (⟨[], []⟩, [])).2
      simpa using ht

/-- Witness for `uploadMultipleImages_window_partition`: three files
with `maxConcurrentUploads = 3` are processed in windows `[2, 1]`. -/
theorem uploadMultipleImages_window_partition_witness :
    batchWindows [⟨"a", "image/png", 1⟩, ⟨"b", "image/png", 1⟩, ⟨"c", "image/png", 1⟩]
        ⟨"u", 100, ["image/png"], 0, 3, 0, 0⟩ =
      chunksOf (min 3 2)
        [⟨"a", "image/png", 1⟩, ⟨"b", "image/png", 1⟩, ⟨"c", "image/png", 1⟩] ∧
    (batchWindows [⟨"a", "image/png", 1⟩, ⟨"b", "image/png", 1⟩, ⟨"c", "image/png", 1⟩]
        ⟨"u", 100, ["image/png"], 0, 3, 0, 0⟩).flatten =
      [⟨"a", "image/png", 1⟩, ⟨"b", "image/png", 1⟩, ⟨"c", "image/png", 1⟩] ∧
    (∀ w ∈ batchWindows [⟨"a", "image/png", 1⟩, ⟨"b", "image/png", 1⟩,
        ⟨"c", "image/png", 1⟩] ⟨"u", 100, ["image/png"], 0, 3, 0, 0⟩,
      w ≠ [] ∧ w.length ≤ min 3 2) ∧
    (∀ w ∈ (batchWindows [⟨"a", "image/png", 1⟩, ⟨"b", "image/png", 1⟩,
        ⟨"c", "image/png", 1⟩] ⟨"u", 100, ["image/png"], 0, 3, 0, 0⟩).dropLast,
      w.length = min 3 2) ∧
    (uploadMultipleImages (fun _ => ⟨.ok "d", ⟨5, .error "down"⟩⟩)
        [⟨"a", "image/png", 1⟩, ⟨"b", "image/png", 1⟩, ⟨"c", "image/png", 1⟩]
        ⟨"u", 100, ["image/png"], 0, 3, 0, 0⟩).2.map (fun p => p.completed) =
      List.range' 1 ([⟨"a", "image/png", 1⟩, ⟨"b", "image/png", 1⟩,
        ⟨"c", "image/png", 1⟩] : List JsFile).length :=
  uploadMultipleImages_window_partition (fun _ => ⟨.ok "d", ⟨5, .error "down"⟩⟩)
    [⟨"a", "image/png", 1⟩, ⟨"b", "image/png", 1⟩, ⟨"c", "image/png", 1⟩]
    ⟨"u", 100, ["image/png"], 0, 3, 0, 0⟩ (by decide)

/-- Claim C2's counterexample: with `maxConcurrentUploads = 3` the
scheduler does *not* use windows of size 3 — the first window holds
only two of three files — and an absent `maxConcurrentUploads`
defaults to windows of 2, not 3. -/
theorem batchWindows_cap_counterexample :
    batchWindows [⟨"a", "image/png", 1⟩, ⟨"b", "image/png", 1⟩, ⟨"c", "image/png", 1⟩]
        ⟨"u", 100, ["image/png"], 0, 3, 0, 0⟩ =
      [[⟨"a", "image/png", 1⟩, ⟨"b", "image/png", 1⟩], [⟨"c", "image/png", 1⟩]] ∧
    batchWindows [⟨"a", "image/png", 1⟩, ⟨"b", "image/png", 1⟩, ⟨"c", "image/png", 1⟩]
        ⟨"u", 100, ["image/png"], 0, 3, 0, 0⟩ ≠
      chunksOf 3 [⟨"a", "image/png", 1⟩, ⟨"b", "image/png", 1⟩, ⟨"c", "image/png", 1⟩] ∧
    batchChunkSize ⟨"u", 100, ["image/png"], 0, 0, 0, 0⟩ = 2 := by
  refine ⟨by rfl, by decide, by rfl⟩

end BatchClaims
